import Mathlib

/-!
Verification of the task-queue core (package taskqueue, file task_queue.go)
against its specification.

Shallow embedding conventions:
* Go `time.Duration` and `time.Time` are modelled as `Int` nanoseconds
  (`time.Duration` is an int64 nanosecond count; `time.Second = 10^9`).
  `Time.Unix()` is floor division by `10^9`.
* `uuid.UUID` is modelled as an `Int` identifier; its JSON rendering is
  abstracted as a number node (an injective encoding, as the uuid string is).
* `encoding/json` byte strings are abstracted at the level of JSON documents:
  a `JsonValue` is the abstract syntax of the serialized blob. `json.Marshal`
  of a `Task` produces the object with the four exported field names;
  `json.Unmarshal` inverts it and fails (returns an error) on any other shape.
* Fallible store calls (ZAdd, EvalSha, Del) are modelled with an explicit
  success flag per call; a failed call leaves the store unchanged.
* `fmt.Errorf` wrapping is modelled by error constructors that carry the
  wrapped cause where some claim examines it.
-/

namespace TaskQueueModel

/-- Abstract syntax of a JSON document: the domain of serialized blobs and of
opaque task payloads. -/
inductive JsonValue where
  | null : JsonValue
  | bool (b : Bool) : JsonValue
  | num (n : Int) : JsonValue
  | str (s : String) : JsonValue
  | arr (elems : List JsonValue) : JsonValue
  | obj (fields : List (String × JsonValue)) : JsonValue

/-- The Task struct of task_queue.go: ID, Payload, RetryCount, Wait.
Wait is a Go time.Duration, i.e. an integer nanosecond count. -/
structure Task where
  ID : Int
  Payload : JsonValue
  RetryCount : Int
  Wait : Int

/-- Go constant time.Second as a Duration: 10^9 nanoseconds. -/
def second : Int := 1000000000

/-- Go Time.Unix(): the time in whole seconds since the epoch.  Times are
nanosecond counts here, so this is floor division by 10^9. -/
def unixSeconds (t : Int) : Int := Int.fdiv t second

/-- First value bound to a key in a JSON object field list, as Go object
decoding looks fields up by name. -/
def jsonLookup (k : String) : List (String × JsonValue) → Option JsonValue
  | [] => none
  | (k', v) :: rest => if k = k' then some v else jsonLookup k rest

/-- MarshalBinary of *Task (task_queue.go line 36): json.Marshal of the
struct, i.e. the JSON object holding the four exported fields. -/
def marshalTask (t : Task) : JsonValue :=
  .obj [("ID", .num t.ID), ("Payload", t.Payload),
        ("RetryCount", .num t.RetryCount), ("Wait", .num t.Wait)]

/-- json.Unmarshal of a serialized blob into a *Task (task_queue.go line
202): succeeds exactly on JSON objects carrying the four fields with the
right shapes, and returns the decoded Task. -/
def unmarshalTask : JsonValue → Option Task
  | .obj fields =>
      match jsonLookup "ID" fields, jsonLookup "Payload" fields,
            jsonLookup "RetryCount" fields, jsonLookup "Wait" fields with
      | some (.num i), some p, some (.num r), some (.num w) =>
          some { ID := i, Payload := p, RetryCount := r, Wait := w }
      | _, _, _, _ => none
  | _ => none

/-- One entry of the redis sorted set backing the Schedule: a score
(the due time in Unix seconds) paired with the serialized member blob. -/
abbrev Entry := Int × JsonValue

/-- The shared store state a single TaskQueue touches: the sorted set at
taskQueueKey and the in-progress marker at inProgressTaskKey of the calling
worker. -/
structure StoreState where
  schedule : List Entry
  inProgress : Option JsonValue

/-- Errors of the taskqueue package (errors.go is not part of the core file;
the constructors carry what the spec says each error carries). -/
inductive QueueError where
  | noTaskToConsume : QueueError
  | claimError : QueueError
  | invalidTaskType : QueueError
  | corruptTask : QueueError
  | maxRetriesExceeded (id : Int) (retryCount : Int) : QueueError
  | scheduleError : QueueError
  | taskLost (id : Int) (cause : QueueError) : QueueError
  | handlerFailed : QueueError
  | getTaskFailed (cause : QueueError) : QueueError

/-- Result of the atomic consume script as seen by getTask: the StatusOK
sentinel for an empty queue, the serialized member string, or a value of an
unexpected type. -/
inductive ScriptResult where
  | statusOK : ScriptResult
  | value (v : JsonValue) : ScriptResult
  | invalid : ScriptResult

/-- Return the entry with the lowest score among those with score ≤ now
together with the schedule with that one entry removed; none when no entry
is due.  Ties go to the entry the store orders first, which the spec leaves
insignificant. -/
def extractMinDue (now : Int) : List Entry → Option (Entry × List Entry)
  | [] => none
  | e :: rest =>
      match extractMinDue now rest with
      | none => if e.1 ≤ now then some (e, rest) else none
      | some (b, rest') =>
          if e.1 ≤ now ∧ e.1 ≤ b.1 then some (e, rest) else some (b, e :: rest')

/-- Modelled from the spec: the consume.lua script that task_queue.go loads
from disk is not among the source files, so its atomic claim operation is
modelled from the Claim Protocol contract (spec section 4.3): find the entry
with the lowest due time ≤ now; if none, return the StatusOK sentinel;
otherwise atomically remove it from the Schedule, record it under the
in-progress key, and return its serialized bytes. -/
def claimScript (now : Int) (st : StoreState) : ScriptResult × StoreState :=
  match extractMinDue now st.schedule with
  | none => (.statusOK, st)
  | some (e, rest) => (.value e.2, { schedule := rest, inProgress := some e.2 })

/-- getTask (task_queue.go line 170): run the consume script with
now.Unix(); StatusOK means no task to consume; a non-string reply fails the
cast; otherwise json.Unmarshal the blob into a Task.  scriptOk models
whether the EvalSha store call itself succeeds; a failed call leaves the
store unchanged. -/
def getTask (scriptOk : Bool) (now : Int) (st : StoreState) :
    Except QueueError Task × StoreState :=
  if scriptOk then
    match claimScript now st with
    | (.statusOK, st') => (.error .noTaskToConsume, st')
    | (.invalid, st') => (.error .invalidTaskType, st')
    | (.value v, st') =>
        match unmarshalTask v with
        | none => (.error .corruptTask, st')
        | some task => (.ok task, st')
  else (.error .claimError, st)

/-- produceAt (task_queue.go line 210): ZAdd the serialized task to the
schedule with score executeAt.Unix().  zaddOk models whether the ZAdd store
call succeeds; a failed call inserts nothing. -/
def produceAt (zaddOk : Bool) (st : StoreState) (task : Task) (executeAt : Int) :
    Except QueueError StoreState :=
  if zaddOk then
    .ok { st with schedule := st.schedule ++ [(unixSeconds executeAt, marshalTask task)] }
  else .error .scheduleError

/-- ProduceAt (task_queue.go line 77): build a Task with a fresh uuid,
RetryCount 0 and Wait 0, insert it at executeAt, and return its id; on a
store failure return uuid.Nil and the wrapped error.  freshId stands for
the uuid.New() draw. -/
def ProduceAt (zaddOk : Bool) (freshId : Int) (payload : JsonValue)
    (executeAt : Int) (st : StoreState) : Except QueueError Int × StoreState :=
  let task : Task := { ID := freshId, Payload := payload, RetryCount := 0, Wait := 0 }
  match produceAt zaddOk st task executeAt with
  | .error e => (.error e, st)
  | .ok st' => (.ok task.ID, st')

/-- The backoff wait of produceRetry (task_queue.go lines 232 to 235):
one second, doubled from the previous wait when that was positive. -/
def nextWait (w : Int) : Int := if w > 0 then 2 * w else second

/-- The retry Task produceRetry builds (task_queue.go lines 237 to 242):
same ID and Payload, RetryCount incremented, Wait set to the backoff. -/
def retryTask (task : Task) : Task :=
  { ID := task.ID, Payload := task.Payload,
    RetryCount := task.RetryCount + 1, Wait := nextWait task.Wait }

/-- produceRetry (task_queue.go line 225): when maxRetries is non-negative
and the RetryCount has reached it, fail with ErrMaxTaskReties; otherwise
schedule the retry Task at now plus the backoff wait. -/
def produceRetry (maxRetries : Int) (zaddOk : Bool) (now : Int) (task : Task)
    (st : StoreState) : Except QueueError StoreState :=
  if maxRetries ≥ 0 ∧ task.RetryCount ≥ maxRetries then
    .error (.maxRetriesExceeded task.ID task.RetryCount)
  else
    produceAt zaddOk st (retryTask task) (now + nextWait task.Wait)

/-- removeInProgressTask (task_queue.go line 254): Del the in-progress key;
a failure is only logged (the function returns nothing).  delOk models
whether the Del store call succeeds. -/
def removeInProgressTask (delOk : Bool) (st : StoreState) : StoreState :=
  if delOk then { st with inProgress := none } else st

/-- The per-tick environment of one consume call: the outcome of each store
round trip this tick may perform, the user handler, and the tick time. -/
structure TickEnv where
  scriptOk : Bool
  zaddOk : Bool
  delOk : Bool
  handler : Int → JsonValue → Bool
  now : Int

/-- What one consume call produced: its returned error (none is a nil
return), the store state it leaves, whether the handler was invoked, and
whether the deferred removeInProgressTask ran. -/
structure ConsumeOutcome where
  res : Option QueueError
  state : StoreState
  handlerInvoked : Bool
  delAttempted : Bool

/-- consume (task_queue.go line 132): get a task (ErrNoTaskToConsume is a
nil return, any other getTask error is returned); from here the
removeInProgressTask is deferred; run the handler; on handler failure call
produceRetry and wrap any retry error as ErrTaskLost with the task id,
otherwise return the wrapped handler error; on handler success return nil. -/
def consume (maxRetries : Int) (env : TickEnv) (st : StoreState) : ConsumeOutcome :=
  match getTask env.scriptOk env.now st with
  | (.error .noTaskToConsume, st') =>
      { res := none, state := st', handlerInvoked := false, delAttempted := false }
  | (.error e, st') =>
      { res := some (.getTaskFailed e), state := st',
        handlerInvoked := false, delAttempted := false }
  | (.ok task, st') =>
      if env.handler task.ID task.Payload then
        { res := none, state := removeInProgressTask env.delOk st',
          handlerInvoked := true, delAttempted := true }
      else
        match produceRetry maxRetries env.zaddOk env.now task st' with
        | .error retryErr =>
            { res := some (.taskLost task.ID retryErr),
              state := removeInProgressTask env.delOk st',
              handlerInvoked := true, delAttempted := true }
        | .ok st'' =>
            { res := some .handlerFailed,
              state := removeInProgressTask env.delOk st'',
              handlerInvoked := true, delAttempted := true }

/-- One occurrence in the select of Consume (task_queue.go line 108): a
ticker tick carrying the environment of that tick, or the firing of the
context cancellation. -/
inductive LoopEvent where
  | tick (env : TickEnv) : LoopEvent
  | cancel : LoopEvent

/-- Whether a loop event is the cancellation firing. -/
def isCancel : LoopEvent → Bool
  | .tick _ => false
  | .cancel => true

/-- Consume (task_queue.go line 97) run over a finite prefix of select
outcomes: each tick runs consume and only logs its error, cancellation
returns.  The Bool is true when the loop returned because of cancellation;
false means the loop is still running after the given events. -/
def consumeLoop (maxRetries : Int) : List LoopEvent → StoreState → Bool × StoreState
  | [], st => (false, st)
  | .tick env :: rest, st => consumeLoop maxRetries rest (consume maxRetries env st).state
  | .cancel :: _, st => (true, st)

/-- N claim invocations against the same store, in the order the atomicity
of the script serializes them. -/
def claimN (now : Int) : Nat → StoreState → List ScriptResult × StoreState
  | 0, st => ([], st)
  | n + 1, st =>
      let (r, st') := claimScript now st
      let (rs, st'') := claimN now n st'
      (r :: rs, st'')

/-- The number of schedule entries due at now. -/
def dueCount (now : Int) (st : StoreState) : Nat :=
  st.schedule.countP (fun e => e.1 ≤ now)

/-- The lifetime of one logical task: the Task value after n reschedules by
produceRetry. -/
def iterRetry : Nat → Task → Task
  | 0, t => t
  | n + 1, t => retryTask (iterRetry n t)

/-- n consecutive handler failures of one logical task: each failure hands
the previously rescheduled Task back to produceRetry, stopping at the first
retry error. -/
def consecFails (maxRetries : Int) (zaddOk : Bool) (now : Int) :
    Nat → Task → StoreState → Except QueueError StoreState
  | 0, _, st => .ok st
  | n + 1, t, st =>
      match produceRetry maxRetries zaddOk now t st with
      | .error e => .error e
      | .ok st' => consecFails maxRetries zaddOk now n (retryTask t) st'

end TaskQueueModel

namespace TaskQueueModel

/-! ## Theorems -/

/-- C5: deserializing the bytes produced by serializing any task yields
that task back: ID, Payload, RetryCount and Wait all round-trip exactly. -/
theorem marshal_roundtrip (t : Task) : unmarshalTask (marshalTask t) = some t := by
  cases t
  simp [marshalTask, unmarshalTask, jsonLookup]

/-- C7: ProduceAt builds a task with the given fresh id, RetryCount 0 and
Wait 0, appends exactly that one serialized entry to the Schedule with
score executeAt in Unix seconds leaving the rest of the store unchanged,
and returns the new id; when the store insert fails it returns an error
and inserts nothing. -/
theorem ProduceAt_spec (freshId : Int) (payload : JsonValue) (executeAt : Int)
    (st : StoreState) :
    ProduceAt true freshId payload executeAt st =
      (.ok freshId,
        { st with schedule := st.schedule ++
            [(unixSeconds executeAt,
              marshalTask { ID := freshId, Payload := payload, RetryCount := 0, Wait := 0 })] }) ∧
    ProduceAt false freshId payload executeAt st = (.error .scheduleError, st) := by
  exact ⟨rfl, rfl⟩

/-- The backoff never shrinks the wait. -/
theorem wait_le_nextWait (w : Int) : w ≤ nextWait w := by
  unfold nextWait second
  split <;> omega

/-- The code backoff agrees with max(one second, doubled wait) whenever the
previous wait is non-positive or at least half a second. -/
theorem nextWait_eq_max (w : Int) (hw : w ≤ 0 ∨ second ≤ 2 * w) :
    nextWait w = max second (2 * w) := by
  unfold nextWait second at *
  rw [max_def]
  split_ifs <;> omega

/-- The id is constant along a lifetime of reschedules. -/
theorem iterRetry_ID (t : Task) : ∀ n, (iterRetry n t).ID = t.ID := by
  intro n
  induction n with
  | zero => rfl
  | succ n ih => simpa [iterRetry, retryTask] using ih

/-- The payload is constant along a lifetime of reschedules. -/
theorem iterRetry_Payload (t : Task) : ∀ n, (iterRetry n t).Payload = t.Payload := by
  intro n
  induction n with
  | zero => rfl
  | succ n ih => simpa [iterRetry, retryTask] using ih

/-- The retry count after n reschedules is the original count plus n. -/
theorem iterRetry_RetryCount (t : Task) :
    ∀ n, (iterRetry n t).RetryCount = t.RetryCount + n := by
  intro n
  induction n with
  | zero => simp [iterRetry]
  | succ n ih =>
      simp only [iterRetry, retryTask, ih]
      push_cast
      ring

/-- The wait is monotonically non-decreasing along a lifetime of
reschedules. -/
theorem iterRetry_Wait_mono (t : Task) :
    ∀ m n, m ≤ n → (iterRetry m t).Wait ≤ (iterRetry n t).Wait := by
  intro m n hmn
  induction n with
  | zero =>
      have : m = 0 := Nat.le_zero.mp hmn
      simp [this]
  | succ n ih =>
      rcases Nat.le_succ_iff.mp hmn with h | h
      · exact le_trans (ih h) (wait_le_nextWait (iterRetry n t).Wait)
      · simp [h]

/-- C1 counterexample: a task with a positive sub-second wait (0.3s) below
the retry ceiling is rescheduled with wait 0.6s, not
max(1 second, 2 times 0.3s) = 1 second. -/
theorem produceRetry_backoff_cex :
    (retryTask { ID := 1, Payload := .null, RetryCount := 0, Wait := 300000000 }).Wait ≠
      max second (2 * 300000000) ∧
    produceRetry 5 true 0 { ID := 1, Payload := .null, RetryCount := 0, Wait := 300000000 }
        { schedule := [], inProgress := none } =
      .ok { schedule :=
              [(0, marshalTask (retryTask
                  { ID := 1, Payload := .null, RetryCount := 0, Wait := 300000000 }))],
            inProgress := none } := by
  constructor
  · decide
  · rfl

/-- C1 amended: for every task below the retry ceiling the rescheduled wait
is 2 times the previous wait when that is positive and one second
otherwise; this equals max(1 second, 2 times the previous wait) whenever
the previous wait is non-positive or at least half a second (as holds for
every wait the system itself produces), and a previous wait of 0 yields
exactly one second. -/
theorem produceRetry_backoff_amended (mr now : Int) (t : Task) (st : StoreState)
    (hceil : ¬(mr ≥ 0 ∧ t.RetryCount ≥ mr))
    (hw : t.Wait ≤ 0 ∨ second ≤ 2 * t.Wait) :
    produceRetry mr true now t st =
      .ok { st with schedule := st.schedule ++
        [(unixSeconds (now + nextWait t.Wait), marshalTask (retryTask t))] } ∧
    (retryTask t).Wait = max second (2 * t.Wait) ∧
    (t.Wait = 0 → (retryTask t).Wait = second) := by
  refine ⟨?_, nextWait_eq_max t.Wait hw, ?_⟩
  · unfold produceRetry
    rw [if_neg hceil]
    rfl
  · intro h0
    simp [retryTask, nextWait, h0]

/-- C1 amended witness at a concrete input: an unlimited-retries queue and
a first failure with wait 0. -/
theorem produceRetry_backoff_amended_witness :
    produceRetry (-1) true 0 { ID := 0, Payload := .null, RetryCount := 0, Wait := 0 }
        { schedule := [], inProgress := none } =
      .ok { schedule := ([] : List Entry) ++
              [(unixSeconds (0 + nextWait 0),
                marshalTask (retryTask { ID := 0, Payload := .null, RetryCount := 0, Wait := 0 }))],
            inProgress := none } ∧
    (retryTask { ID := 0, Payload := .null, RetryCount := 0, Wait := 0 }).Wait =
      max second (2 * (0 : Int)) ∧
    (({ ID := 0, Payload := .null, RetryCount := 0, Wait := 0 } : Task).Wait = 0 →
      (retryTask { ID := 0, Payload := .null, RetryCount := 0, Wait := 0 }).Wait = second) :=
  produceRetry_backoff_amended (-1) 0
    { ID := 0, Payload := .null, RetryCount := 0, Wait := 0 }
    { schedule := [], inProgress := none } (by decide) (Or.inl (by decide))

/-- C6: every successful reschedule appends exactly the serialized retry
task (same id, same payload, retry count incremented by one, wait not
decreased) and touches nothing else; hence along any lifetime of
reschedules the id and payload are constant, the retry count grows by one
per reschedule, and the wait is monotonically non-decreasing. -/
theorem produceRetry_invariants (mr : Int) (zaddOk : Bool) (now : Int) (t : Task)
    (st st' : StoreState) (h : produceRetry mr zaddOk now t st = .ok st') :
    st'.schedule = st.schedule ++
      [(unixSeconds (now + nextWait t.Wait), marshalTask (retryTask t))] ∧
    st'.inProgress = st.inProgress ∧
    (retryTask t).ID = t.ID ∧
    (retryTask t).Payload = t.Payload ∧
    (retryTask t).RetryCount = t.RetryCount + 1 ∧
    t.Wait ≤ (retryTask t).Wait ∧
    (∀ n : Nat, (iterRetry n t).ID = t.ID ∧
      (iterRetry n t).Payload = t.Payload ∧
      (iterRetry n t).RetryCount = t.RetryCount + n ∧
      ∀ m : Nat, m ≤ n → (iterRetry m t).Wait ≤ (iterRetry n t).Wait) := by
  unfold produceRetry produceAt at h
  split at h
  · exact absurd h (by simp)
  · split at h
    · rw [Except.ok.injEq] at h
      subst h
      refine ⟨rfl, rfl, rfl, rfl, rfl, wait_le_nextWait t.Wait, ?_⟩
      intro n
      exact ⟨iterRetry_ID t n, iterRetry_Payload t n, iterRetry_RetryCount t n,
        fun m hm => iterRetry_Wait_mono t m n hm⟩
    · exact absurd h (by simp)

/-- C6 witness at a concrete input: one successful reschedule on an
unlimited-retries queue. -/
theorem produceRetry_invariants_witness :
    let t : Task := { ID := 3, Payload := .str "p", RetryCount := 1, Wait := second }
    let st : StoreState := { schedule := [], inProgress := some (marshalTask t) }
    let st' : StoreState :=
      { schedule := [(unixSeconds (0 + nextWait t.Wait), marshalTask (retryTask t))],
        inProgress := some (marshalTask t) }
    st'.schedule = st.schedule ++
      [(unixSeconds (0 + nextWait t.Wait), marshalTask (retryTask t))] ∧
    st'.inProgress = st.inProgress ∧
    (retryTask t).ID = t.ID ∧
    (retryTask t).Payload = t.Payload ∧
    (retryTask t).RetryCount = t.RetryCount + 1 ∧
    t.Wait ≤ (retryTask t).Wait ∧
    (∀ n : Nat, (iterRetry n t).ID = t.ID ∧
      (iterRetry n t).Payload = t.Payload ∧
      (iterRetry n t).RetryCount = t.RetryCount + n ∧
      ∀ m : Nat, m ≤ n → (iterRetry m t).Wait ≤ (iterRetry n t).Wait) :=
  produceRetry_invariants (-1) true 0
    { ID := 3, Payload := .str "p", RetryCount := 1, Wait := second }
    { schedule := [], inProgress := some (marshalTask { ID := 3, Payload := .str "p", RetryCount := 1, Wait := second }) }
    _ (by rfl)

/-- A task strictly below the ceiling (or any task when maxRetries is
negative) is rescheduled successfully when the store insert succeeds. -/
theorem produceRetry_ok_of_lt (mr now : Int) (t : Task) (st : StoreState)
    (h : t.RetryCount < mr ∨ mr < 0) :
    produceRetry mr true now t st =
      .ok { st with schedule := st.schedule ++
        [(unixSeconds (now + nextWait t.Wait), marshalTask (retryTask t))] } := by
  unfold produceRetry produceAt
  rw [if_neg (by omega)]
  simp

/-- Unfolding one successful step of a consecutive-failure chain. -/
theorem consecFails_succ_of_ok (mr : Int) (zadd : Bool) (now : Int) (n : Nat)
    (t : Task) (st st1 : StoreState) (hok : produceRetry mr zadd now t st = .ok st1) :
    consecFails mr zadd now (n + 1) t st = consecFails mr zadd now n (retryTask t) st1 := by
  simp only [consecFails]
  rw [hok]

/-- Unfolding one failing step of a consecutive-failure chain. -/
theorem consecFails_succ_of_error (mr : Int) (zadd : Bool) (now : Int) (n : Nat)
    (t : Task) (st : StoreState) (e : QueueError)
    (herr : produceRetry mr zadd now t st = .error e) :
    consecFails mr zadd now (n + 1) t st = .error e := by
  simp only [consecFails]
  rw [herr]

/-- As long as the chain stays below the ceiling (or the ceiling is
negative), every consecutive failure is rescheduled. -/
theorem consecFails_ok (mr now : Int) :
    ∀ (n : Nat) (t : Task) (st : StoreState), ((t.RetryCount + n ≤ mr) ∨ mr < 0) →
      ∃ st', consecFails mr true now n t st = .ok st' := by
  intro n
  induction n with
  | zero => exact fun t st _ => ⟨st, rfl⟩
  | succ n ih =>
      intro t st h
      have hok := produceRetry_ok_of_lt mr now t st (by omega)
      obtain ⟨st', h'⟩ := ih (retryTask t)
        { st with schedule := st.schedule ++
            [(unixSeconds (now + nextWait t.Wait), marshalTask (retryTask t))] }
        (by simp only [retryTask]; omega)
      exact ⟨st', by rw [consecFails_succ_of_ok _ _ _ _ _ _ _ hok]; exact h'⟩

/-- A chain of exactly enough failures to reach the ceiling is dropped on
its last step with ErrMaxTaskReties carrying the id and the count. -/
theorem consecFails_drop (mr now : Int) (hk : 0 ≤ mr) :
    ∀ (n : Nat) (t : Task) (st : StoreState), t.RetryCount + n = mr →
      consecFails mr true now (n + 1) t st = .error (.maxRetriesExceeded t.ID mr) := by
  intro n
  induction n with
  | zero =>
      intro t st h
      have herr : produceRetry mr true now t st =
          .error (.maxRetriesExceeded t.ID t.RetryCount) := by
        unfold produceRetry
        rw [if_pos ⟨hk, by omega⟩]
      rw [consecFails_succ_of_error _ _ _ _ _ _ _ herr]
      rw [show t.RetryCount = mr by omega]
  | succ n ih =>
      intro t st h
      have hok := produceRetry_ok_of_lt mr now t st (by omega)
      rw [consecFails_succ_of_ok _ _ _ _ _ _ _ hok]
      have hr := ih (retryTask t)
        { st with schedule := st.schedule ++
            [(unixSeconds (now + nextWait t.Wait), marshalTask (retryTask t))] }
        (by simp only [retryTask]; omega)
      rw [hr]
      rfl

/-- C2: produceRetry fails with MaxRetriesExceeded exactly when maxRetries
is non-negative and the retry count has reached it; with maxRetries = k a
fresh task survives any k consecutive failures and is dropped on the
(k+1)-th, and with negative maxRetries no number of consecutive failures
is ever dropped. -/
theorem produceRetry_ceiling (mr now : Int) (zaddOk : Bool) (t : Task)
    (st : StoreState) (k : Nat) (t0 : Task) (h0 : t0.RetryCount = 0) :
    (produceRetry mr zaddOk now t st = .error (.maxRetriesExceeded t.ID t.RetryCount) ↔
      0 ≤ mr ∧ mr ≤ t.RetryCount) ∧
    (∀ n : Nat, n ≤ k → ∀ st0 : StoreState,
      ∃ st', consecFails (k : Int) true now n t0 st0 = .ok st') ∧
    (∀ st0 : StoreState, consecFails (k : Int) true now (k + 1) t0 st0 =
      .error (.maxRetriesExceeded t0.ID k)) ∧
    (mr < 0 → ∀ (n : Nat) (st0 : StoreState),
      ∃ st', consecFails mr true now n t0 st0 = .ok st') := by
  refine ⟨⟨?_, ?_⟩, ?_, ?_, ?_⟩
  · intro h
    by_contra hc
    rw [produceRetry] at h
    rw [if_neg (by omega)] at h
    unfold produceAt at h
    split at h <;> simp at h
  · intro hc
    rw [produceRetry, if_pos ⟨hc.1, hc.2⟩]
  · intro n hn st0
    exact consecFails_ok (k : Int) now n t0 st0 (Or.inl (by omega))
  · intro st0
    exact consecFails_drop (k : Int) now (by omega) k t0 st0 (by omega)
  · intro hneg n st0
    exact consecFails_ok mr now n t0 st0 (Or.inr hneg)

/-- C2 witness at a concrete input: maxRetries 2 with a fresh task for the
chain clauses, and the ceiling test at maxRetries 0 against retry count 0. -/
theorem produceRetry_ceiling_witness :
    (produceRetry 0 true 0 { ID := 7, Payload := .null, RetryCount := 0, Wait := 0 }
        { schedule := [], inProgress := none } =
      .error (.maxRetriesExceeded
        ({ ID := 7, Payload := .null, RetryCount := 0, Wait := 0 } : Task).ID
        ({ ID := 7, Payload := .null, RetryCount := 0, Wait := 0 } : Task).RetryCount) ↔
      (0 : Int) ≤ 0 ∧ (0 : Int) ≤
        ({ ID := 7, Payload := .null, RetryCount := 0, Wait := 0 } : Task).RetryCount) ∧
    (∀ n : Nat, n ≤ 2 → ∀ st0 : StoreState,
      ∃ st', consecFails ((2 : Nat) : Int) true 0 n
        { ID := 9, Payload := .bool true, RetryCount := 0, Wait := 0 } st0 = .ok st') ∧
    (∀ st0 : StoreState, consecFails ((2 : Nat) : Int) true 0 (2 + 1)
        { ID := 9, Payload := .bool true, RetryCount := 0, Wait := 0 } st0 =
      .error (.maxRetriesExceeded
        ({ ID := 9, Payload := .bool true, RetryCount := 0, Wait := 0 } : Task).ID 2)) ∧
    ((0 : Int) < 0 → ∀ (n : Nat) (st0 : StoreState),
      ∃ st', consecFails 0 true 0 n
        { ID := 9, Payload := .bool true, RetryCount := 0, Wait := 0 } st0 = .ok st') :=
  produceRetry_ceiling 0 0 true { ID := 7, Payload := .null, RetryCount := 0, Wait := 0 }
    { schedule := [], inProgress := none } 2
    { ID := 9, Payload := .bool true, RetryCount := 0, Wait := 0 } rfl

/-- consume after a successful getTask: the deferred marker removal is
registered, the handler runs, and the outcome follows the handler and
produceRetry results. -/
theorem consume_eq_of_getTask_ok (mr : Int) (env : TickEnv) (st st' : StoreState)
    (task : Task) (hget : getTask env.scriptOk env.now st = (.ok task, st')) :
    consume mr env st =
      if env.handler task.ID task.Payload then
        { res := none, state := removeInProgressTask env.delOk st',
          handlerInvoked := true, delAttempted := true }
      else
        match produceRetry mr env.zaddOk env.now task st' with
        | .error retryErr =>
            { res := some (.taskLost task.ID retryErr),
              state := removeInProgressTask env.delOk st',
              handlerInvoked := true, delAttempted := true }
        | .ok st'' =>
            { res := some .handlerFailed,
              state := removeInProgressTask env.delOk st'',
              handlerInvoked := true, delAttempted := true } := by
  unfold consume
  rw [hget]

/-- consume when getTask reports no due task: a nil return, no handler
call, no marker removal. -/
theorem consume_eq_of_noTask (mr : Int) (env : TickEnv) (st st' : StoreState)
    (hget : getTask env.scriptOk env.now st = (.error .noTaskToConsume, st')) :
    consume mr env st =
      { res := none, state := st', handlerInvoked := false, delAttempted := false } := by
  unfold consume
  rw [hget]

/-- consume when getTask fails for any other reason: the wrapped error is
returned, no handler call, no marker removal. -/
theorem consume_eq_of_getTask_error (mr : Int) (env : TickEnv) (st st' : StoreState)
    (e : QueueError) (hget : getTask env.scriptOk env.now st = (.error e, st'))
    (hne : e ≠ .noTaskToConsume) :
    consume mr env st =
      { res := some (.getTaskFailed e), state := st',
        handlerInvoked := false, delAttempted := false } := by
  cases e <;> first
    | exact absurd rfl hne
    | (unfold consume; rw [hget])

/-- The claim script records exactly the blob it returns under the
in-progress key. -/
theorem claimScript_value_inProgress (now : Int) (st st' : StoreState) (v : JsonValue)
    (h : claimScript now st = (.value v, st')) : st'.inProgress = some v := by
  unfold claimScript at h
  cases hx : extractMinDue now st.schedule with
  | none => rw [hx] at h; simp at h
  | some p =>
      rw [hx] at h
      obtain ⟨he, hst⟩ := Prod.mk.injEq .. ▸ h
      rw [← hst]
      cases he
      rfl

/-- getTask on a store whose claim returns an undecodable blob: the corrupt
task error, with the claim already executed. -/
theorem getTask_corrupt (now : Int) (st st' : StoreState) (v : JsonValue)
    (hclaim : claimScript now st = (.value v, st')) (hbad : unmarshalTask v = none) :
    getTask true now st = (.error .corruptTask, st') := by
  unfold getTask
  rw [if_pos rfl, hclaim]
  simp [hbad]

/-- The returned error of a consume tick does not depend on whether the
in-progress marker deletion succeeds. -/
theorem consume_res_indep_delOk (mr : Int) (env : TickEnv) (st : StoreState)
    (d1 d2 : Bool) :
    (consume mr { env with delOk := d1 } st).res =
    (consume mr { env with delOk := d2 } st).res := by
  cases hget : getTask env.scriptOk env.now st with
  | mk r st' =>
    cases r with
    | error e => cases e <;> simp [consume, hget]
    | ok task =>
        by_cases hh : env.handler task.ID task.Payload
        · simp [consume, hget, hh]
        · cases hpr : produceRetry mr env.zaddOk env.now task st' <;>
            simp [consume, hget, hh, hpr]

/-- C3 counterexample: with maxRetries 0, a due task whose handler fails is
surfaced as TaskLost wrapping MaxRetriesExceeded even though every store
call succeeded, so exceeding the retry ceiling is not a distinct
non-TaskLost outcome of the per-tick consume. -/
theorem consume_taskLost_cex :
    (consume 0
        { scriptOk := true, zaddOk := true, delOk := true,
          handler := fun _ _ => false, now := 0 }
        { schedule := [(0, marshalTask { ID := 7, Payload := .null, RetryCount := 0, Wait := 0 })],
          inProgress := none }).res =
      some (.taskLost 7 (.maxRetriesExceeded 7 0)) ∧
    produceRetry 0 true 0 { ID := 7, Payload := .null, RetryCount := 0, Wait := 0 }
        { schedule := [],
          inProgress := some (marshalTask { ID := 7, Payload := .null, RetryCount := 0, Wait := 0 }) } =
      .error (.maxRetriesExceeded 7 0) := by
  exact ⟨rfl, rfl⟩

/-- C3 amended: after a handler failure the per-tick consume surfaces
TaskLost (carrying the task id and the produceRetry error as cause)
exactly when produceRetry returns an error, which happens both when the
reschedule store-call fails and when the retry ceiling is exceeded;
MaxRetriesExceeded is wrapped as the TaskLost cause, not surfaced as a
distinct outcome. -/
theorem consume_taskLost_amended (mr : Int) (env : TickEnv) (st st' : StoreState)
    (task : Task) (hget : getTask env.scriptOk env.now st = (.ok task, st'))
    (hfail : env.handler task.ID task.Payload = false) :
    (consume mr env st).res =
      (match produceRetry mr env.zaddOk env.now task st' with
       | .error e => some (.taskLost task.ID e)
       | .ok _ => some .handlerFailed) ∧
    (∀ e : QueueError, produceRetry mr env.zaddOk env.now task st' = .error e →
      (consume mr env st).res = some (.taskLost task.ID e)) := by
  rw [consume_eq_of_getTask_ok mr env st st' task hget, hfail]
  constructor
  · cases hpr : produceRetry mr env.zaddOk env.now task st' <;> simp [hpr]
  · intro e hpr
    simp [hpr]

/-- C3 amended witness at a concrete input: the reschedule store-call
fails, and the tick surfaces TaskLost wrapping the store error. -/
theorem consume_taskLost_amended_witness :
    (consume (-1)
        { scriptOk := true, zaddOk := false, delOk := true,
          handler := fun _ _ => false, now := 0 }
        { schedule := [(0, marshalTask { ID := 4, Payload := .null, RetryCount := 0, Wait := 0 })],
          inProgress := none }).res =
      (match produceRetry (-1) false 0 { ID := 4, Payload := .null, RetryCount := 0, Wait := 0 }
          { schedule := [],
            inProgress := some (marshalTask { ID := 4, Payload := .null, RetryCount := 0, Wait := 0 }) } with
       | .error e => some (.taskLost ({ ID := 4, Payload := .null, RetryCount := 0, Wait := 0 } : Task).ID e)
       | .ok _ => some .handlerFailed) ∧
    (∀ e : QueueError,
      produceRetry (-1) false 0 { ID := 4, Payload := .null, RetryCount := 0, Wait := 0 }
          { schedule := [],
            inProgress := some (marshalTask { ID := 4, Payload := .null, RetryCount := 0, Wait := 0 }) } =
        .error e →
      (consume (-1)
          { scriptOk := true, zaddOk := false, delOk := true,
            handler := fun _ _ => false, now := 0 }
          { schedule := [(0, marshalTask { ID := 4, Payload := .null, RetryCount := 0, Wait := 0 })],
            inProgress := none }).res =
        some (.taskLost ({ ID := 4, Payload := .null, RetryCount := 0, Wait := 0 } : Task).ID e)) :=
  consume_taskLost_amended (-1)
    { scriptOk := true, zaddOk := false, delOk := true,
      handler := fun _ _ => false, now := 0 }
    { schedule := [(0, marshalTask { ID := 4, Payload := .null, RetryCount := 0, Wait := 0 })],
      inProgress := none }
    { schedule := [],
      inProgress := some (marshalTask { ID := 4, Payload := .null, RetryCount := 0, Wait := 0 }) }
    { ID := 4, Payload := .null, RetryCount := 0, Wait := 0 }
    (by rfl) (by rfl)

/-- C9: whenever the handler was invoked the deferred marker removal runs
regardless of the outcome (success, or failure whether or not the
reschedule succeeded); a successful Del leaves the marker cleared, and a
failure of the Del never changes the error consume returns. -/
theorem consume_clears_marker (mr : Int) (env : TickEnv) (st : StoreState)
    (h : (consume mr env st).handlerInvoked = true) :
    (consume mr env st).delAttempted = true ∧
    (env.delOk = true → (consume mr env st).state.inProgress = none) ∧
    (∀ d1 d2 : Bool,
      (consume mr { env with delOk := d1 } st).res =
      (consume mr { env with delOk := d2 } st).res) := by
  refine ⟨?_, ?_, fun d1 d2 => consume_res_indep_delOk mr env st d1 d2⟩
  · cases hget : getTask env.scriptOk env.now st with
    | mk r st' =>
      cases r with
      | error e => cases e <;> simp [consume, hget] at h
      | ok task =>
          by_cases hh : env.handler task.ID task.Payload
          · simp [consume, hget, hh]
          · cases hpr : produceRetry mr env.zaddOk env.now task st' <;>
              simp [consume, hget, hh, hpr]
  · intro hd
    cases hget : getTask env.scriptOk env.now st with
    | mk r st' =>
      cases r with
      | error e => cases e <;> simp [consume, hget] at h
      | ok task =>
          by_cases hh : env.handler task.ID task.Payload
          · simp [consume, hget, hh, removeInProgressTask, hd]
          · cases hpr : produceRetry mr env.zaddOk env.now task st' <;>
              simp [consume, hget, hh, hpr, removeInProgressTask, hd]

/-- C9 witness at a concrete input: a due task whose handler succeeds. -/
theorem consume_clears_marker_witness :
    (consume 0
        { scriptOk := true, zaddOk := true, delOk := true,
          handler := fun _ _ => true, now := 0 }
        { schedule := [(0, marshalTask { ID := 5, Payload := .null, RetryCount := 0, Wait := 0 })],
          inProgress := none }).delAttempted = true ∧
    (({ scriptOk := true, zaddOk := true, delOk := true,
        handler := fun _ _ => true, now := 0 } : TickEnv).delOk = true →
      (consume 0
        { scriptOk := true, zaddOk := true, delOk := true,
          handler := fun _ _ => true, now := 0 }
        { schedule := [(0, marshalTask { ID := 5, Payload := .null, RetryCount := 0, Wait := 0 })],
          inProgress := none }).state.inProgress = none) ∧
    (∀ d1 d2 : Bool,
      (consume 0
        { scriptOk := true, zaddOk := true, delOk := d1,
          handler := fun _ _ => true, now := 0 }
        { schedule := [(0, marshalTask { ID := 5, Payload := .null, RetryCount := 0, Wait := 0 })],
          inProgress := none }).res =
      (consume 0
        { scriptOk := true, zaddOk := true, delOk := d2,
          handler := fun _ _ => true, now := 0 }
        { schedule := [(0, marshalTask { ID := 5, Payload := .null, RetryCount := 0, Wait := 0 })],
          inProgress := none }).res) :=
  consume_clears_marker 0
    { scriptOk := true, zaddOk := true, delOk := true,
      handler := fun _ _ => true, now := 0 }
    { schedule := [(0, marshalTask { ID := 5, Payload := .null, RetryCount := 0, Wait := 0 })],
      inProgress := none }
    (by rfl)

/-- C10: when the claim returns a blob that fails to deserialize, the tick
returns the corrupt-task error without invoking the handler and without
attempting the marker removal, and the marker the atomic claim wrote is
still set in the resulting store. -/
theorem consume_corrupt_keeps_marker (mr : Int) (env : TickEnv) (st st' : StoreState)
    (v : JsonValue) (hok : env.scriptOk = true)
    (hclaim : claimScript env.now st = (.value v, st'))
    (hbad : unmarshalTask v = none) :
    (consume mr env st).res = some (.getTaskFailed .corruptTask) ∧
    (consume mr env st).handlerInvoked = false ∧
    (consume mr env st).delAttempted = false ∧
    (consume mr env st).state = st' ∧
    (consume mr env st).state.inProgress = some v := by
  have hget : getTask env.scriptOk env.now st = (.error .corruptTask, st') := by
    rw [hok]
    exact getTask_corrupt env.now st st' v hclaim hbad
  rw [consume_eq_of_getTask_error mr env st st' .corruptTask hget (by simp)]
  exact ⟨rfl, rfl, rfl, rfl, claimScript_value_inProgress env.now st st' v hclaim⟩

/-- C10 witness at a concrete input: the schedule holds a due blob that is
not a serialized task. -/
theorem consume_corrupt_keeps_marker_witness :
    (consume 0
        { scriptOk := true, zaddOk := true, delOk := true,
          handler := fun _ _ => true, now := 0 }
        { schedule := [(0, .null)], inProgress := none }).res =
      some (.getTaskFailed .corruptTask) ∧
    (consume 0
        { scriptOk := true, zaddOk := true, delOk := true,
          handler := fun _ _ => true, now := 0 }
        { schedule := [(0, .null)], inProgress := none }).handlerInvoked = false ∧
    (consume 0
        { scriptOk := true, zaddOk := true, delOk := true,
          handler := fun _ _ => true, now := 0 }
        { schedule := [(0, .null)], inProgress := none }).delAttempted = false ∧
    (consume 0
        { scriptOk := true, zaddOk := true, delOk := true,
          handler := fun _ _ => true, now := 0 }
        { schedule := [(0, .null)], inProgress := none }).state =
      { schedule := [], inProgress := some .null } ∧
    (consume 0
        { scriptOk := true, zaddOk := true, delOk := true,
          handler := fun _ _ => true, now := 0 }
        { schedule := [(0, .null)], inProgress := none }).state.inProgress = some .null :=
  consume_corrupt_keeps_marker 0
    { scriptOk := true, zaddOk := true, delOk := true,
      handler := fun _ _ => true, now := 0 }
    { schedule := [(0, .null)], inProgress := none }
    { schedule := [], inProgress := some .null }
    .null (by rfl) (by rfl) (by rfl)

/-- C8: the consumer loop returns exactly when the cancellation event
fires; processing any sequence of ticks, however their consume calls fail,
leaves it running, and cancellation is observed at the select between
ticks, never inside the processing of a tick. -/
theorem consumeLoop_cancel_only (mr : Int) (evts : List LoopEvent) (st : StoreState) :
    (consumeLoop mr evts st).1 = evts.any isCancel := by
  induction evts generalizing st with
  | nil => rfl
  | cons e rest ih =>
      cases e with
      | tick env => simp [consumeLoop, isCancel, ih]
      | cancel => simp [consumeLoop, isCancel]

/-- extractMinDue returns a due entry. -/
theorem extractMinDue_due (now : Int) :
    ∀ (l : List Entry) (e : Entry) (rest : List Entry),
      extractMinDue now l = some (e, rest) → e.1 ≤ now := by
  intro l
  induction l with
  | nil => intro e rest h; simp [extractMinDue] at h
  | cons a l ih =>
      intro e rest h
      cases hx : extractMinDue now l with
      | none =>
          simp only [extractMinDue, hx] at h
          by_cases hd : a.1 ≤ now
          · rw [if_pos hd] at h
            obtain ⟨rfl, rfl⟩ := Prod.mk.injEq .. ▸ Option.some.injEq .. ▸ h
            exact hd
          · rw [if_neg hd] at h
            exact absurd h (by simp)
      | some p =>
          obtain ⟨b, rest'⟩ := p
          simp only [extractMinDue, hx] at h
          by_cases hd : a.1 ≤ now ∧ a.1 ≤ b.1
          · rw [if_pos hd] at h
            obtain ⟨rfl, rfl⟩ := Prod.mk.injEq .. ▸ Option.some.injEq .. ▸ h
            exact hd.1
          · rw [if_neg hd] at h
            obtain ⟨rfl, rfl⟩ := Prod.mk.injEq .. ▸ Option.some.injEq .. ▸ h
            exact ih b rest' hx

/-- extractMinDue removes exactly one occurrence: the input list is a
permutation of the extracted entry consed on the remainder. -/
theorem extractMinDue_perm (now : Int) :
    ∀ (l : List Entry) (e : Entry) (rest : List Entry),
      extractMinDue now l = some (e, rest) → l.Perm (e :: rest) := by
  intro l
  induction l with
  | nil => intro e rest h; simp [extractMinDue] at h
  | cons a l ih =>
      intro e rest h
      cases hx : extractMinDue now l with
      | none =>
          simp only [extractMinDue, hx] at h
          by_cases hd : a.1 ≤ now
          · rw [if_pos hd] at h
            obtain ⟨rfl, rfl⟩ := Prod.mk.injEq .. ▸ Option.some.injEq .. ▸ h
            exact List.Perm.refl _
          · rw [if_neg hd] at h
            exact absurd h (by simp)
      | some p =>
          obtain ⟨b, rest'⟩ := p
          simp only [extractMinDue, hx] at h
          by_cases hd : a.1 ≤ now ∧ a.1 ≤ b.1
          · rw [if_pos hd] at h
            obtain ⟨rfl, rfl⟩ := Prod.mk.injEq .. ▸ Option.some.injEq .. ▸ h
            exact List.Perm.refl _
          · rw [if_neg hd] at h
            obtain ⟨rfl, rfl⟩ := Prod.mk.injEq .. ▸ Option.some.injEq .. ▸ h
            exact ((ih b rest' hx).cons a).trans (List.Perm.swap b a rest')

/-- extractMinDue finds nothing exactly when no entry is due. -/
theorem extractMinDue_none_iff (now : Int) :
    ∀ l : List Entry, extractMinDue now l = none ↔
      l.countP (fun e => e.1 ≤ now) = 0 := by
  intro l
  induction l with
  | nil => simp [extractMinDue]
  | cons a l ih =>
      cases hx : extractMinDue now l with
      | none =>
          have hl := ih.mp hx
          simp only [extractMinDue, hx]
          by_cases hd : a.1 ≤ now
          · rw [if_pos hd]
            simp only [List.countP_cons, hd]
            constructor
            · intro h
              exact absurd h (by simp)
            · intro h
              simp at h
          · rw [if_neg hd]
            simp [List.countP_cons, hd, hl]
      | some p =>
          obtain ⟨b, rest'⟩ := p
          have hcount : l.countP (fun e => e.1 ≤ now) ≠ 0 := by
            intro h0
            rw [← ih] at h0
            rw [h0] at hx
            simp at hx
          simp only [extractMinDue, hx]
          constructor
          · intro h
            split at h <;> simp at h
          · intro h
            rw [List.countP_cons] at h
            omega

/-- On a schedule with exactly one due entry the claim script returns that
entry, records it in progress, and leaves no due entry behind. -/
theorem claimScript_single (now s0 : Int) (v0 : JsonValue) (st : StoreState)
    (hdue : st.schedule.filter (fun e => e.1 ≤ now) = [(s0, v0)]) :
    ∃ rest : List Entry,
      claimScript now st = (.value v0, { schedule := rest, inProgress := some v0 }) ∧
      rest.countP (fun e => e.1 ≤ now) = 0 := by
  cases hx : extractMinDue now st.schedule with
  | none =>
      rw [extractMinDue_none_iff, List.countP_eq_length_filter, hdue] at hx
      simp at hx
  | some p =>
      obtain ⟨e, rest⟩ := p
      have hperm := extractMinDue_perm now st.schedule e rest hx
      have hdue_e := extractMinDue_due now st.schedule e rest hx
      have hmem : e ∈ st.schedule.filter (fun x => x.1 ≤ now) :=
        List.mem_filter.mpr ⟨hperm.mem_iff.mpr (List.mem_cons_self e rest), by simpa using hdue_e⟩
      rw [hdue, List.mem_singleton] at hmem
      have hcnt : st.schedule.countP (fun x => x.1 ≤ now) =
          rest.countP (fun x => x.1 ≤ now) + 1 := by
        rw [hperm.countP_eq, List.countP_cons]
        simp [hdue_e]
      rw [List.countP_eq_length_filter, hdue] at hcnt
      simp only [List.length_singleton] at hcnt
      refine ⟨rest, ?_, by omega⟩
      unfold claimScript
      rw [hx, hmem]

/-- Claims against a schedule with no due entry return the sentinel and
change nothing, however many are issued. -/
theorem claimN_empty (now : Int) :
    ∀ (n : Nat) (st : StoreState), st.schedule.countP (fun e => e.1 ≤ now) = 0 →
      claimN now n st = (List.replicate n .statusOK, st) := by
  intro n
  induction n with
  | zero => intro st h; rfl
  | succ n ih =>
      intro st h
      have hcs : claimScript now st = (.statusOK, st) := by
        unfold claimScript
        rw [(extractMinDue_none_iff now st.schedule).mpr h]
      simp only [claimN]
      rw [hcs, ih st h]
      rfl

/-- C4: against a schedule holding exactly one due task, any number N ≥ 1
of claim invocations (in the order the atomic script serializes them)
yields that task exactly once, the no-task sentinel the other N-1 times,
and leaves no due task visible in the schedule. -/
theorem claim_no_double_claim (N : Nat) (now s0 : Int) (v0 : JsonValue) (st : StoreState)
    (hdue : st.schedule.filter (fun e => e.1 ≤ now) = [(s0, v0)]) (hN : 1 ≤ N) :
    (claimN now N st).1 = .value v0 :: List.replicate (N - 1) .statusOK ∧
    dueCount now (claimN now N st).2 = 0 := by
  obtain ⟨n, rfl⟩ : ∃ n, N = n + 1 := ⟨N - 1, by omega⟩
  obtain ⟨rest, hcs, hcount⟩ := claimScript_single now s0 v0 st hdue
  simp only [claimN]
  rw [hcs, claimN_empty now n { schedule := rest, inProgress := some v0 } hcount]
  exact ⟨rfl, by simpa [dueCount] using hcount⟩

/-- C4 witness at a concrete input: three concurrent claims against a
schedule with one due and one future task. -/
theorem claim_no_double_claim_witness :
    (claimN 5 3 { schedule := [(5, .str "t"), (100, .null)], inProgress := none }).1 =
      .value (.str "t") :: List.replicate (3 - 1) .statusOK ∧
    dueCount 5 (claimN 5 3 { schedule := [(5, .str "t"), (100, .null)], inProgress := none }).2 = 0 :=
  claim_no_double_claim 3 5 5 (.str "t")
    { schedule := [(5, .str "t"), (100, .null)], inProgress := none }
    (by rfl) (by decide)

end TaskQueueModel
